import Mathlib

/-
Verification of the rategrab scrape server (src/server.js).

The development shallowly embeds the scrape orchestration and
incremental-merge engine of the server: the JS objects holding the result
store and the supplier cache become insertion-ordered association lists,
timestamps become integers (milliseconds since the epoch) or the literal
strings the code manipulates, and every network interaction is passed in
as an explicit oracle describing the outcome of each outbound call.
Deliberate delays (setTimeout) change no observable state and are omitted.
-/

set_option maxHeartbeats 1000000

namespace Rategrab

/-- Refresh interval in milliseconds: 48 hours (server.js line 40). -/
def REFRESH_INTERVAL : Int := 48 * 60 * 60 * 1000

/-- Source label stored on every record (the constant WEBSITE_NAME of
fetchData, server.js line 136). -/
def WEBSITE_NAME : String := "ALLCAMPS"

/-- A campsite registry entry (campsites.json).  The field lastUpdate is
the update instant in milliseconds since the epoch; none models an absent
(or otherwise falsy) lastUpdate field, matching the code test
"!c.lastUpdate". -/
structure Campsite where
  code : String
  name : String
  country : String
  region : String
  lastUpdate : Option Int
deriving DecidableEq

/-- A raw listing as delivered by the search endpoint: exactly the fields
that fetchData (server.js lines 151-175) reads off each item. -/
structure RawItem where
  id : Nat
  name : String
  category : String
  categorySlug : String
  maxPersons : Nat
  bedrooms : Nat
  aircondition : Bool
  dogAllowed : Bool
  priceBeforeFeesBeforeDiscount : Int
  priceBeforeFeesAfterDiscount : Int
  size : Nat
  arrivalDate : String
  duration : Nat
deriving DecidableEq

/-- A normalized result record, one entry of results.json: the object
literal built by fetchData (server.js lines 156-175).  The supplier is an
opaque identity or null, modelled as Option String. -/
structure ResultRecord where
  id : Nat
  name : String
  category : String
  categorySlug : String
  maxPersons : Nat
  bedrooms : Nat
  aircondition : Bool
  dogAllowed : Bool
  priceBeforeFeesBeforeDiscount : Int
  priceBeforeFeesAfterDiscount : Int
  size : Nat
  arrivalDate : String
  duration : Nat
  supplier : Option String
  campsite : String
  requestedDate : String
  website : String
  timestamp : String
deriving DecidableEq

/-- The result store: a JavaScript object with string keys, modelled as an
insertion-ordered association list.  A JS object never holds two entries
with the same key; stores built by the operations below preserve that
invariant (keysNodup). -/
abbrev Store := List (String × ResultRecord)

/-- JS property read o[k]. -/
def objGet (o : Store) (k : String) : Option ResultRecord :=
  (o.find? (fun p => p.1 == k)).map (fun p => p.2)

/-- JS property write o[k] = v: if the key is present its entry is updated
in place (keeping its position), otherwise the entry is appended at the
end, matching JS object insertion order. -/
def objSet : Store → String → ResultRecord → Store
  | [], k, v => [(k, v)]
  | p :: o, k, v => if p.1 == k then (k, v) :: o else p :: objSet o k v

/-- Object.assign(target, src): every entry of src is written into target
in order, later writes winning (server.js lines 201 and 217). -/
def objAssign (target src : Store) : Store :=
  src.foldl (fun acc p => objSet acc p.1 p.2) target

/-- The JS-object invariant: the keys of the association list are
pairwise distinct. -/
def keysNodup (o : Store) : Prop := (o.map Prod.fst).Nodup

instance decKeysNodup (o : Store) : Decidable (keysNodup o) :=
  inferInstanceAs (Decidable (o.map Prod.fst).Nodup)

theorem objGet_cons (p : String × ResultRecord) (o : Store) (k : String) :
    objGet (p :: o) k = if p.1 == k then some p.2 else objGet o k := by
  cases h : p.1 == k <;> simp [objGet, List.find?_cons, h]

theorem objGet_objSet_self (o : Store) (k : String) (v : ResultRecord) :
    objGet (objSet o k v) k = some v := by
  induction o with
  | nil => simp [objSet, objGet]
  | cons p o ih =>
      by_cases h : p.1 = k
      · simp [objSet, h, objGet_cons]
      · have hb : (p.1 == k) = false := by simp [h]
        simp [objSet, hb, objGet_cons, ih]

theorem objGet_objSet_ne (o : Store) (k k' : String) (v : ResultRecord)
    (h : k' ≠ k) : objGet (objSet o k v) k' = objGet o k' := by
  have h' : ¬ (k = k') := fun hh => h hh.symm
  induction o with
  | nil => simp [objSet, objGet_cons, objGet, h']
  | cons p o ih =>
      by_cases hp : p.1 = k
      · simp [objSet, hp, objGet_cons, h']
      · simp [objSet, hp, objGet_cons, ih]

theorem mem_keys_objSet (o : Store) (k : String) (v : ResultRecord)
    (x : String) :
    x ∈ (objSet o k v).map Prod.fst ↔ x = k ∨ x ∈ o.map Prod.fst := by
  induction o with
  | nil => simp [objSet]
  | cons p o ih =>
      by_cases hp : p.1 = k
      · simp [objSet, hp]
        try tauto
      · simp [objSet, hp, ih]
        try tauto

theorem keysNodup_objSet (o : Store) (k : String) (v : ResultRecord)
    (h : keysNodup o) : keysNodup (objSet o k v) := by
  induction o with
  | nil => simp [objSet, keysNodup]
  | cons p o ih =>
      rw [keysNodup, List.map_cons, List.nodup_cons] at h
      by_cases hp : p.1 = k
      · have hstep : objSet (p :: o) k v = (k, v) :: o := by simp [objSet, hp]
        rw [keysNodup, hstep, List.map_cons, List.nodup_cons]
        exact ⟨by rw [← hp]; exact h.1, h.2⟩
      · have hstep : objSet (p :: o) k v = p :: objSet o k v := by
          simp [objSet, hp]
        rw [keysNodup, hstep, List.map_cons, List.nodup_cons]
        refine ⟨?_, ih h.2⟩
        intro hmem
        rcases (mem_keys_objSet o k v p.1).mp hmem with h1 | h2
        · exact hp h1
        · exact h.1 h2

theorem objGet_eq_none (o : Store) (k : String) :
    objGet o k = none ↔ ∀ p ∈ o, ¬ p.1 = k := by
  induction o with
  | nil => simp [objGet]
  | cons p o ih =>
      by_cases hp : p.1 = k
      · simp [objGet_cons, hp]
      · simp [objGet_cons, hp, ih]

theorem objGet_objAssign_none (t s : Store) (k : String)
    (h : objGet s k = none) : objGet (objAssign t s) k = objGet t k := by
  induction s generalizing t with
  | nil => rfl
  | cons p s ih =>
      rw [objGet_cons] at h
      by_cases hp : p.1 = k
      · simp [hp] at h
      · simp only [hp, beq_iff_eq, if_false, if_neg] at h
        have hstep : objAssign t (p :: s) = objAssign (objSet t p.1 p.2) s := rfl
        rw [hstep, ih _ h, objGet_objSet_ne _ _ _ _ (fun hh => hp hh.symm)]

theorem objGet_objAssign_some (t s : Store) (k : String) (v : ResultRecord)
    (hnd : keysNodup s) (h : objGet s k = some v) :
    objGet (objAssign t s) k = some v := by
  induction s generalizing t with
  | nil => simp [objGet] at h
  | cons p s ih =>
      rw [keysNodup, List.map_cons, List.nodup_cons] at hnd
      rw [objGet_cons] at h
      have hstep : objAssign t (p :: s) = objAssign (objSet t p.1 p.2) s := rfl
      by_cases hp : p.1 = k
      · have h2 : some p.2 = some v := by simpa [hp] using h
        have hnone : objGet s k = none := by
          rw [objGet_eq_none]
          intro q hq hqk
          apply hnd.1
          rw [hp, ← hqk]
          exact List.mem_map_of_mem Prod.fst hq
        rw [hstep, objGet_objAssign_none _ _ _ hnone, hp, objGet_objSet_self]
        exact h2
      · have h3 : objGet s k = some v := by simpa [hp] using h
        rw [hstep]
        exact ih _ hnd.2 h3

theorem keysNodup_objAssign (t s : Store) (h : keysNodup t) :
    keysNodup (objAssign t s) := by
  induction s generalizing t with
  | nil => exact h
  | cons p s ih =>
      have hstep : objAssign t (p :: s) = objAssign (objSet t p.1 p.2) s := rfl
      rw [hstep]
      exact ih _ (keysNodup_objSet _ _ _ h)

/-! The supplier cache (fetchSupplierData, server.js lines 72-116).

The cache store supplierCache.json maps an item id to a supplier identity
(an opaque JS object, modelled as a String) or null (modelled as none).
The network is an oracle: net a is the outcome of the axios.get of attempt
number a, where none models a thrown transport error and some v models a
resolved response whose value of the expression
response.data?.supplier || null equals v. -/

/-- Maximum number of lookup attempts (maxRetries, server.js line 83). -/
def maxRetries : Nat := 3

/-- The supplier cache store: item id to supplier identity or null. -/
abbrev SupplierCache := List (Nat × Option String)

/-- JS property read supplierCache[itemId]: none when the id is absent,
some v when an entry v (possibly null) is present. -/
def cacheGet (cache : SupplierCache) (itemId : Nat) : Option (Option String) :=
  (cache.find? (fun p => p.1 == itemId)).map (fun p => p.2)

/-- JS truthiness of supplierCache[itemId], the condition of the cache-hit
test on server.js line 76: the test passes exactly when an entry is
present and its value is a (truthy) supplier object, that is, not null.
A cached null is falsy and fails the test. -/
def truthyHit (cache : SupplierCache) (itemId : Nat) : Option String :=
  match cacheGet cache itemId with
  | some (some s) => some s
  | _ => none

/-- JS property write supplierCache[itemId] = v (server.js line 99). -/
def cacheSet : SupplierCache → Nat → Option String → SupplierCache
  | [], k, v => [(k, v)]
  | p :: o, k, v => if p.1 == k then (k, v) :: o else p :: cacheSet o k v

/-- Observable outcome of one fetchSupplierData call: the returned value,
the cache store afterwards, whether the cache file was written, and how
many network requests were issued. -/
structure SupResult where
  value : Option String
  cache : SupplierCache
  saved : Bool
  netCalls : Nat
deriving DecidableEq

/-- The retry loop of fetchSupplierData (server.js lines 86-115): on a
successful attempt the supplier is stored in the cache and the cache file
is saved; on a failed attempt the counter is incremented and, once it
reaches maxRetries, null is returned with nothing persisted.  The fuel
argument equals maxRetries minus attempt and makes the recursion
structural; the loop is entered with attempt = 0 and fuel = maxRetries. -/
def runAttempts (itemId : Nat) (cache : SupplierCache)
    (net : Nat → Option (Option String)) : Nat → Nat → SupResult
  | _, 0 => { value := none, cache := cache, saved := false, netCalls := 0 }
  | attempt, fuel + 1 =>
    match net attempt with
    | some supplier =>
        { value := supplier, cache := cacheSet cache itemId supplier,
          saved := true, netCalls := 1 }
    | none =>
        if attempt + 1 ≥ maxRetries then
          { value := none, cache := cache, saved := false, netCalls := 1 }
        else
          let r := runAttempts itemId cache net (attempt + 1) fuel
          { r with netCalls := r.netCalls + 1 }

/-- fetchSupplierData (server.js lines 72-116): load the cache store, test
supplierCache[itemId] for truthiness, return the entry on a truthy hit,
and otherwise run the retry loop.  The jittered pre-request delays and the
fixed 1000 ms retry delay change no observable state and are omitted. -/
def fetchSupplierData (itemId : Nat) (cache : SupplierCache)
    (net : Nat → Option (Option String)) : SupResult :=
  match truthyHit cache itemId with
  | some s => { value := some s, cache := cache, saved := false, netCalls := 0 }
  | none => runAttempts itemId cache net 0 maxRetries

/-! The candidate selector (the GET /scrape trigger, server.js lines
251-258).  Instants are milliseconds since the epoch; the selector itself
is the find call on line 254. -/

/-- The staleness predicate of server.js line 254: lastUpdate is absent
(falsy) or strictly older than now minus the refresh interval. -/
def isStale (now : Int) (c : Campsite) : Bool :=
  match c.lastUpdate with
  | none => true
  | some t => decide (t < now - REFRESH_INTERVAL)

/-- campsites.find(c => !c.lastUpdate || new Date(c.lastUpdate) <
refreshTime): the first stale campsite in registry order, none when every
campsite is fresh.  A pure read: no store is touched. -/
def findStaleCampsite (campsites : List Campsite) (now : Int) : Option Campsite :=
  campsites.find? (isStale now)

/-! The ingestion timestamp (server.js line 149):
new Date().toISOString().replace("T", ", ").slice(0, 16). -/

/-- JS String.prototype.replace with the string pattern "T" and
replacement ", ": only the first occurrence is replaced.  Modelled on the
character list of the string; every character the server handles here is
ASCII, so JS UTF-16 code units and Lean characters agree. -/
def jsReplaceFirstT : List Char → List Char
  | [] => []
  | c :: rest => if c = 'T' then ',' :: ' ' :: rest else c :: jsReplaceFirstT rest

/-- The ingestion timestamp computed by fetchData from the current instant
iso (the value of new Date().toISOString()): replace the first "T" by
", ", then slice(0, 16), that is, keep the first 16 characters. -/
def jsTimestamp (iso : String) : String :=
  String.mk ((jsReplaceFirstT iso.data).take 16)

/-! The per-date fetch and transform step (fetchData, server.js lines
135-186). -/

/-- The body of a successful search response: rawData.data with its
primary accommodations array and its alternatives array.  Either array
may be absent (undefined), which the code defaults to [] with the
expression rawData.data.accommodations || []. -/
structure RawResponse where
  accommodations : Option (List RawItem)
  alternatives : Option (List RawItem)
deriving DecidableEq

/-- The composite key of a result record (server.js line 154). -/
def mkKey (code date : String) (id : Nat) : String :=
  code ++ "_from_" ++ WEBSITE_NAME ++ "_at_" ++ date ++ "_#" ++ toString id

/-- The object literal of server.js lines 156-175: one raw listing plus
its resolved supplier, the owning campsite code, the requested date, the
source label and the ingestion timestamp. -/
def transformItem (item : RawItem) (supplier : Option String) (c : Campsite)
    (date ts : String) : ResultRecord :=
  { id := item.id, name := item.name, category := item.category,
    categorySlug := item.categorySlug, maxPersons := item.maxPersons,
    bedrooms := item.bedrooms, aircondition := item.aircondition,
    dogAllowed := item.dogAllowed,
    priceBeforeFeesBeforeDiscount := item.priceBeforeFeesBeforeDiscount,
    priceBeforeFeesAfterDiscount := item.priceBeforeFeesAfterDiscount,
    size := item.size, arrivalDate := item.arrivalDate,
    duration := item.duration, supplier := supplier, campsite := c.code,
    requestedDate := date, website := WEBSITE_NAME, timestamp := ts }

/-- fetchData (server.js lines 135-186).  resp is the outcome of the
axios.post search call: none models a thrown transport or parse error
(including a missing rawData.data, whose property access throws inside
the try block), in which case the function returns null and no partial
data.  On success the accommodations and alternatives arrays are
concatenated and transformed one listing at a time.  The per-listing
supplier resolution is the stateful fetchSupplierData call, abstracted as
a resolver threading a state of type S (instantiated with the supplier
cache and network oracle when needed); iso is the current instant as an
ISO string, from which the ingestion timestamp is computed.  fetchStep is
one iteration of the transform loop (server.js lines 151-179): resolve
the supplier of the item, build its record and write it into the
accumulating object under its composite key. -/
def fetchStep {S : Type} (resolve : S → Nat → Option String × S)
    (c : Campsite) (date ts : String) (acc : Store × S) (item : RawItem) :
    Store × S :=
  let rs := resolve acc.2 item.id
  (objSet acc.1 (mkKey c.code date item.id)
    (transformItem item rs.1 c date ts), rs.2)

def fetchData {S : Type} (resp : Option RawResponse)
    (resolve : S → Nat → Option String × S) (s0 : S) (c : Campsite)
    (date iso : String) : Option (Store × S) :=
  match resp with
  | none => none
  | some raw =>
    let combined := raw.accommodations.getD [] ++ raw.alternatives.getD []
    some (combined.foldl (fetchStep resolve c date (jsTimestamp iso))
      (([] : Store), s0))

/-! The scrape orchestrator (scrapeCampsite, server.js lines 188-245).
The date registry dates.json is an ordered list of (label, date) entries;
the per-date fetch outcome is abstracted as fetched label date, the store
the fetchData call for that entry produces, or none on failure. -/

/-- The per-date loop of scrapeCampsite (server.js lines 194-207): fold
over the date entries in registry order, merging each successful fetch
into the in-memory newResults object with Object.assign and skipping
failed dates; dateStep is one iteration of that loop. -/
def dateStep (fetched : String → String → Option Store) (acc : Store)
    (e : String × String) : Store :=
  match fetched e.1 e.2 with
  | some data => objAssign acc data
  | none => acc

def buildNewResults (dates : List (String × String))
    (fetched : String → String → Option Store) : Store :=
  dates.foldl (dateStep fetched) []

/-- The lastUpdate stamping of server.js lines 234-241: find the first
registry entry whose code matches (campsites.findIndex) and set its
lastUpdate in place; none when no entry matches. -/
def setLastUpdateFirst (code : String) (now : Int) :
    List Campsite → Option (List Campsite)
  | [] => none
  | x :: xs =>
    if x.code == code then some ({ x with lastUpdate := some now } :: xs)
    else (setLastUpdateFirst code now xs).map (fun ys => x :: ys)

/-- The metadata stamping step (server.js lines 226-244): only when
newResults is non-empty (Object.keys(newResults).length > 0) is the
registry entry updated and campsites.json saved; a missing entry is a
logged no-op. -/
def stampLastUpdate (c : Campsite) (campsites : List Campsite) (now : Int)
    (newResults : Store) : List Campsite × Bool :=
  if newResults.isEmpty then (campsites, false)
  else
    match setLastUpdateFirst c.code now campsites with
    | some updated => (updated, true)
    | none => (campsites, false)

/-- Observable outcome of one scrapeCampsite call: the in-memory new
results, the store written to results.json, the sequence of writes to
results.json performed during the call, the campsite registry afterwards,
and whether campsites.json was written. -/
structure ScrapeResult where
  newResults : Store
  savedResults : Store
  resultStoreWrites : List Store
  campsitesAfter : List Campsite
  campsitesSaved : Bool
deriving DecidableEq

/-- scrapeCampsite (server.js lines 188-245): build newResults over the
date registry, drop every record of the current store whose campsite
field equals the target code, overlay newResults with Object.assign, and
save the merged store to results.json in the single write of line 220;
then stamp lastUpdate.  now is the current instant for the stamping. -/
def scrapeCampsite (c : Campsite) (dates : List (String × String))
    (fetched : String → String → Option Store) (currentResults : Store)
    (campsites : List Campsite) (now : Int) : ScrapeResult :=
  let newResults := buildNewResults dates fetched
  let updatedResults :=
    objAssign (currentResults.filter (fun p => p.2.campsite != c.code)) newResults
  let stamped := stampLastUpdate c campsites now newResults
  { newResults := newResults, savedResults := updatedResults,
    resultStoreWrites := [updatedResults],
    campsitesAfter := stamped.1, campsitesSaved := stamped.2 }

/-! The persisted store read path (loadFile, server.js lines 43-52, and
the read accessors GET /data and GET /getCampsites, lines 283-289). -/

/-- A JSON value, the result of JSON.parse. -/
inductive Json where
  | obj : List (String × Json) → Json
  | arr : List Json → Json
  | str : String → Json
  | num : Int → Json
  | bool : Bool → Json
  | null : Json

/-- State of a store file on disk. -/
inductive FileState where
  | missing
  | present (content : String)

/-- loadFile (server.js lines 43-52), parameterized by a model parse of
JSON.parse (none models a thrown parse error): a missing file yields the
caller-supplied default; an existing file is read and parsed, an empty
read falling back to the two-character text of an empty JSON object (the
expression content || in the code); a parse error is caught and yields
the default. -/
def loadFile (parse : String → Option Json) (file : FileState)
    (dflt : Json) : Json :=
  match file with
  | .missing => dflt
  | .present content =>
    match parse (if content = "" then "\x7b\x7d" else content) with
    | some v => v
    | none => dflt

/-- The GET /data accessor (server.js lines 283-285): loadFile on
results.json with the descriptive placeholder as default. -/
def dataEndpoint (parse : String → Option Json) (file : FileState) : Json :=
  loadFile parse file
    (Json.obj [("error", Json.str "No data found. Please run a scrape first.")])

/-- The GET /getCampsites accessor (server.js lines 287-289). -/
def getCampsitesEndpoint (parse : String → Option Json) (file : FileState) : Json :=
  loadFile parse file
    (Json.obj [("error", Json.str "No campsites found. Please check setup configuration.")])

/-- A parse model for JSON.parse fixing only the value this development
evaluates it at: the two-character text of an empty JSON object parses to
the empty object, as JSON.parse does. -/
def parseModel : String → Option Json :=
  fun s => if s = "\x7b\x7d" then some (Json.obj []) else none

/-! Supporting lemmas for the supplier cache. -/

theorem runAttempts_saved_false (itemId : Nat) (cache : SupplierCache)
    (net : Nat → Option (Option String)) (attempt fuel : Nat)
    (h : (runAttempts itemId cache net attempt fuel).saved = false) :
    (runAttempts itemId cache net attempt fuel).cache = cache ∧
    (runAttempts itemId cache net attempt fuel).value = none := by
  induction fuel generalizing attempt with
  | zero => exact ⟨rfl, rfl⟩
  | succ fuel ih =>
      rw [runAttempts] at h ⊢
      cases hn : net attempt
      · rw [hn] at h
        by_cases hge : attempt + 1 ≥ maxRetries
        · simp [hge]
        · simp only [hge, if_false] at h ⊢
          exact ih (attempt + 1) h
      · rw [hn] at h
        simp at h

/-- The cache store is mutated only by a successful lookup: whenever
fetchSupplierData does not save the cache file, the cache is unchanged. -/
theorem fetchSupplierData_saved_false (itemId : Nat) (cache : SupplierCache)
    (net : Nat → Option (Option String))
    (h : (fetchSupplierData itemId cache net).saved = false) :
    (fetchSupplierData itemId cache net).cache = cache := by
  unfold fetchSupplierData at h ⊢
  cases ht : truthyHit cache itemId
  · rw [ht] at h
    exact (runAttempts_saved_false itemId cache net 0 maxRetries h).1
  · rfl

/-- C2 (amended): a cache hit short-circuits only for a truthy cached
value.  For every item id whose cached value is a non-null supplier
object, fetchSupplierData performs zero network calls, returns the cached
value, and leaves the cache store untouched and unsaved.  (A cached null
is falsy, fails the hit test of server.js line 76 and is refetched; see
the counterexample.) -/
theorem C2_cache_short_circuit (itemId : Nat) (cache : SupplierCache)
    (net : Nat → Option (Option String)) (s : String)
    (hhit : truthyHit cache itemId = some s) :
    fetchSupplierData itemId cache net =
      { value := some s, cache := cache, saved := false, netCalls := 0 } := by
  unfold fetchSupplierData
  rw [hhit]

/-- C2 witness: a concrete truthy cache hit. -/
theorem C2_cache_short_circuit_witness :
    fetchSupplierData 42 [(42, some "Acme")] (fun _ => none) =
      { value := some "Acme", cache := [(42, some "Acme")], saved := false,
        netCalls := 0 } :=
  C2_cache_short_circuit 42 [(42, some "Acme")] (fun _ => none) "Acme" rfl

/-- C2 counterexample: item id 42 is present in the supplier cache store
with cached value null, yet resolving 42 performs a network call (one
call, which succeeds here) and returns the freshly fetched value instead
of the cached null — the claim that a cached null short-circuits with
zero network calls is false on the code. -/
theorem C2_counterexample :
    (fetchSupplierData 42 [(42, none)] (fun _ => some (some "Acme"))).netCalls ≠ 0 ∧
    (fetchSupplierData 42 [(42, none)] (fun _ => some (some "Acme"))).value ≠ none ∧
    (fetchSupplierData 42 [(42, none)] (fun _ => some (some "Acme"))).saved = true := by
  refine ⟨?_, ?_, ?_⟩ <;> decide

/-- C5: on a cache miss whose three lookup attempts all fail,
fetchSupplierData returns null, issues exactly three network calls,
writes nothing, and leaves the cache store unchanged — so a later call
for the same id misses again and retries; moreover the cache store is
mutated only when a lookup succeeds (saved = true). -/
theorem C5_retry_exhaustion (itemId : Nat) (cache : SupplierCache)
    (net : Nat → Option (Option String))
    (hmiss : truthyHit cache itemId = none)
    (h0 : net 0 = none) (h1 : net 1 = none) (h2 : net 2 = none) :
    fetchSupplierData itemId cache net =
      { value := none, cache := cache, saved := false, netCalls := 3 } ∧
    (∀ (i : Nat) (c : SupplierCache) (n : Nat → Option (Option String)),
        (fetchSupplierData i c n).saved = false →
        (fetchSupplierData i c n).cache = c) := by
  refine ⟨?_, fun i c n h => fetchSupplierData_saved_false i c n h⟩
  unfold fetchSupplierData
  rw [hmiss]
  have e3 : runAttempts itemId cache net 2 1 =
      { value := none, cache := cache, saved := false, netCalls := 1 } := by
    rw [runAttempts, h2]
    norm_num [maxRetries]
  have e2 : runAttempts itemId cache net 1 2 =
      { value := none, cache := cache, saved := false, netCalls := 2 } := by
    rw [runAttempts, h1]
    norm_num [maxRetries, e3]
  show runAttempts itemId cache net 0 maxRetries = _
  rw [show maxRetries = 3 from rfl, runAttempts, h0]
  norm_num [maxRetries, e2]

/-- C5 witness: a concrete empty cache and an always-failing network. -/
theorem C5_retry_exhaustion_witness :
    fetchSupplierData 7 [] (fun _ => none) =
      { value := none, cache := [], saved := false, netCalls := 3 } :=
  (C5_retry_exhaustion 7 [] (fun _ => none) rfl rfl rfl rfl).1

/-! Supporting lemmas for the candidate selector. -/

theorem isStale_iff (now : Int) (c : Campsite) :
    isStale now c = true ↔
      c.lastUpdate = none ∨
        ∃ t, c.lastUpdate = some t ∧ t < now - REFRESH_INTERVAL := by
  cases h : c.lastUpdate <;> simp [isStale, h]

/-- C4: the candidate selector of the /scrape trigger is the pure find
over the campsite registry: a selected campsite has lastUpdate absent or
strictly older than now minus the 48-hour interval and is the first such
campsite in registry order; no campsite is selected exactly when every
campsite is fresh; a campsite updated 10 hours ago is never selected; and
whenever some campsite has lastUpdate absent or equal to now minus 72
hours, a campsite is selected. -/
theorem C4_candidate_selector (cs : List Campsite) (now : Int) :
    (∀ c, findStaleCampsite cs now = some c →
        (c.lastUpdate = none ∨
          ∃ t, c.lastUpdate = some t ∧ t < now - REFRESH_INTERVAL) ∧
        ∃ pre post, cs = pre ++ c :: post ∧ ∀ x ∈ pre, isStale now x = false) ∧
    (findStaleCampsite cs now = none ↔ ∀ c ∈ cs, isStale now c = false) ∧
    (∀ c, findStaleCampsite cs now = some c →
        c.lastUpdate ≠ some (now - 10 * 60 * 60 * 1000)) ∧
    ((∃ c ∈ cs, c.lastUpdate = none ∨
        c.lastUpdate = some (now - 72 * 60 * 60 * 1000)) →
      findStaleCampsite cs now ≠ none) := by
  refine ⟨?_, ?_, ?_, ?_⟩
  · intro c hc
    rw [findStaleCampsite, List.find?_eq_some] at hc
    refine ⟨(isStale_iff now c).mp hc.1, ?_⟩
    obtain ⟨pre, post, hcs, hpre⟩ := hc.2
    refine ⟨pre, post, hcs, fun x hx => ?_⟩
    have := hpre x hx
    simpa using this
  · rw [findStaleCampsite, List.find?_eq_none]
    constructor
    · intro h c hc
      simpa using h c hc
    · intro h c hc
      simp [h c hc]
  · intro c hc heq
    have hst := List.find?_some hc
    rw [isStale_iff] at hst
    rcases hst with hnone | ⟨t, ht, hlt⟩
    · rw [heq] at hnone
      cases hnone
    · rw [heq] at ht
      injection ht with ht
      rw [← ht] at hlt
      rw [REFRESH_INTERVAL] at hlt
      omega
  · rintro ⟨c, hmem, hor⟩ hnone
    rw [findStaleCampsite, List.find?_eq_none] at hnone
    apply hnone c hmem
    rw [isStale_iff]
    rcases hor with h | h
    · exact Or.inl h
    · refine Or.inr ⟨now - 72 * 60 * 60 * 1000, h, ?_⟩
      rw [REFRESH_INTERVAL]
      omega

/-- A campsite refreshed 10 hours before the probe instant. -/
def campFresh : Campsite :=
  { code := "F", name := "fresh", country := "de", region := "r",
    lastUpdate := some (1000000000 - 10 * 60 * 60 * 1000) }

/-- A campsite refreshed 72 hours before the probe instant. -/
def campStale : Campsite :=
  { code := "S", name := "stale", country := "de", region := "r",
    lastUpdate := some (1000000000 - 72 * 60 * 60 * 1000) }

/-- C4 witness: with a 10-hour-old campsite first and a 72-hour-old one
second, the selector picks the 72-hour-old one. -/
theorem C4_candidate_selector_witness :
    findStaleCampsite [campFresh, campStale] 1000000000 ≠ none ∧
    findStaleCampsite [campFresh, campStale] 1000000000 = some campStale :=
  ⟨(C4_candidate_selector [campFresh, campStale] 1000000000).2.2.2
      ⟨campStale, by simp, Or.inr rfl⟩,
    by decide⟩

/-- C9 (amended): the read accessors never fail and return the parsed
store as-is; the descriptive placeholder object is returned when the
store file is missing or unparseable; an existing empty file, however,
yields the empty JSON object, not the placeholder, because loadFile falls
back to parsing an empty-object literal. -/
theorem C9_read_accessors (parse : String → Option Json)
    (hp : parse "\x7b\x7d" = some (Json.obj [])) :
    (dataEndpoint parse FileState.missing =
        Json.obj [("error", Json.str "No data found. Please run a scrape first.")]) ∧
    (getCampsitesEndpoint parse FileState.missing =
        Json.obj [("error", Json.str "No campsites found. Please check setup configuration.")]) ∧
    (dataEndpoint parse (FileState.present "") = Json.obj [] ∧
      getCampsitesEndpoint parse (FileState.present "") = Json.obj []) ∧
    (∀ content v, content ≠ "" → parse content = some v →
        dataEndpoint parse (FileState.present content) = v ∧
        getCampsitesEndpoint parse (FileState.present content) = v) ∧
    (∀ content, content ≠ "" → parse content = none →
        dataEndpoint parse (FileState.present content) =
          Json.obj [("error", Json.str "No data found. Please run a scrape first.")] ∧
        getCampsitesEndpoint parse (FileState.present content) =
          Json.obj [("error", Json.str "No campsites found. Please check setup configuration.")]) := by
  refine ⟨rfl, rfl, ?_, ?_, ?_⟩
  · constructor <;> simp [dataEndpoint, getCampsitesEndpoint, loadFile, hp]
  · intro content v hc hparse
    constructor <;> simp [dataEndpoint, getCampsitesEndpoint, loadFile, hc, hparse]
  · intro content hc hparse
    constructor <;> simp [dataEndpoint, getCampsitesEndpoint, loadFile, hc, hparse]

/-- C9 witness: the missing-file and empty-file cases at the concrete
parse model. -/
theorem C9_read_accessors_witness :
    dataEndpoint parseModel FileState.missing =
      Json.obj [("error", Json.str "No data found. Please run a scrape first.")] ∧
    dataEndpoint parseModel (FileState.present "") = Json.obj [] :=
  ⟨(C9_read_accessors parseModel rfl).1,
    ((C9_read_accessors parseModel rfl).2.2.1).1⟩

/-- C9 counterexample: an existing but empty results.json makes GET /data
return the empty JSON object, not the descriptive placeholder — the claim
that the placeholder is returned whenever the file is empty or missing is
false on the code for the empty-file case. -/
theorem C9_counterexample :
    dataEndpoint parseModel (FileState.present "") = Json.obj [] ∧
    dataEndpoint parseModel (FileState.present "") ≠
      Json.obj [("error", Json.str "No data found. Please run a scrape first.")] := by
  constructor
  · rfl
  · intro h
    rw [show dataEndpoint parseModel (FileState.present "") = Json.obj [] from rfl] at h
    injection h with h2
    cases h2

/-! Supporting material for the ingestion timestamp (C8): a character
pattern language in which the letter D matches one decimal digit and
every other pattern character matches itself. -/

/-- Pattern match on character lists: D matches a digit, every other
pattern character matches only itself, and the lengths must agree. -/
def matchChars : List Char → List Char → Bool
  | [], [] => true
  | p :: ps, c :: cs => (if p = 'D' then c.isDigit else c = p) && matchChars ps cs
  | _, _ => false

/-- Pattern match on strings. -/
def matchesPattern (pat s : String) : Bool :=
  matchChars pat.data s.data

theorem matchChars_length :
    ∀ ps cs, matchChars ps cs = true → cs.length = ps.length := by
  intro ps
  induction ps with
  | nil => intro cs h; cases cs with
      | nil => rfl
      | cons c cs => simp [matchChars] at h
  | cons p ps ih =>
      intro cs h
      cases cs with
      | nil => simp [matchChars] at h
      | cons c cs =>
          rw [matchChars, Bool.and_eq_true] at h
          simp [ih cs h.2]

theorem matchChars_mem :
    ∀ ps cs, matchChars ps cs = true → ∀ c ∈ cs, c.isDigit = true ∨ c ∈ ps := by
  intro ps
  induction ps with
  | nil => intro cs h c hc
           cases cs with
           | nil => cases hc
           | cons x cs => simp [matchChars] at h
  | cons p ps ih =>
      intro cs h c hc
      cases cs with
      | nil => cases hc
      | cons x cs =>
          rw [matchChars, Bool.and_eq_true] at h
          rcases List.mem_cons.mp hc with rfl | hc2
          · by_cases hp : p = 'D'
            · rw [if_pos hp] at h
              exact Or.inl h.1
            · rw [if_neg hp] at h
              have : c = p := by simpa using h.1
              exact Or.inr (this ▸ List.mem_cons_self _ _)
          · rcases ih cs h.2 c hc2 with hd | hm
            · exact Or.inl hd
            · exact Or.inr (List.mem_cons_of_mem _ hm)

theorem matchChars_append :
    ∀ (p1 s1 p2 s2 : List Char), s1.length = p1.length →
      matchChars (p1 ++ p2) (s1 ++ s2) = (matchChars p1 s1 && matchChars p2 s2) := by
  intro p1
  induction p1 with
  | nil =>
      intro s1 p2 s2 hlen
      cases s1 with
      | nil => simp [matchChars]
      | cons x s1 => simp at hlen
  | cons p p1 ih =>
      intro s1 p2 s2 hlen
      cases s1 with
      | nil => simp at hlen
      | cons c s1 =>
          have hlen2 : s1.length = p1.length := by simpa using hlen
          have hih := ih s1 p2 s2 hlen2
          simp only [List.cons_append, matchChars]
          rw [show p1.append p2 = p1 ++ p2 from rfl,
            show s1.append s2 = s1 ++ s2 from rfl, hih, Bool.and_assoc]

theorem matchChars_take :
    ∀ (ps cs : List Char) (n : Nat), matchChars ps cs = true →
      matchChars (ps.take n) (cs.take n) = true := by
  intro ps
  induction ps with
  | nil => intro cs n h
           cases cs with
           | nil => simp [matchChars]
           | cons c cs => simp [matchChars] at h
  | cons p ps ih =>
      intro cs n h
      cases cs with
      | nil => simp [matchChars] at h
      | cons c cs =>
          rw [matchChars, Bool.and_eq_true] at h
          cases n with
          | zero => simp [matchChars]
          | succ n =>
              simp only [List.take_succ_cons, matchChars, h.1, Bool.true_and]
              exact ih cs n h.2

theorem data_append (s t : String) : (s ++ t).data = s.data ++ t.data := rfl

theorem eq_of_data_eq (s t : String) (h : s.data = t.data) : s = t := by
  cases s
  cases t
  exact congrArg String.mk h

theorem jsReplaceFirstT_append (d t : List Char) (h : 'T' ∉ d) :
    jsReplaceFirstT (d ++ 'T' :: t) = d ++ ',' :: ' ' :: t := by
  induction d with
  | nil => simp [jsReplaceFirstT]
  | cons c d ih =>
      have hc : c ≠ 'T' := fun hh => h (hh ▸ List.mem_cons_self _ _)
      have hd : 'T' ∉ d := fun hh => h (List.mem_cons_of_mem _ hh)
      simp [jsReplaceFirstT, hc, ih hd]

/-- C8 (amended): the ingestion timestamp stamped by fetchData is the
first 16 characters of the ISO instant with T replaced by a comma and a
space: the format is YYYY-MM-DD, HH:M — date, comma, space, hours, colon
and a SINGLE minute digit (the tens digit), not two minute digits; every
record of a successful fetchData carries exactly this timestamp. -/
theorem C8_timestamp_format (d t : String)
    (hd : matchesPattern "DDDD-DD-DD" d = true)
    (ht : matchesPattern "DD:DD:DD.DDDZ" t = true) :
    jsTimestamp (d ++ "T" ++ t) = d ++ ", " ++ String.mk (t.data.take 4) ∧
    matchesPattern "DDDD-DD-DD, DD:D" (jsTimestamp (d ++ "T" ++ t)) = true := by
  have hdlen : d.data.length = 10 := by
    have := matchChars_length _ _ hd
    simpa using this
  have hdnoT : 'T' ∉ d.data := by
    intro hmem
    rcases matchChars_mem _ _ hd 'T' hmem with h1 | h2
    · simp at h1
    · revert h2
      decide
  have hdata : (d ++ "T" ++ t).data = d.data ++ 'T' :: t.data := by
    rw [data_append, data_append,
      show ("T" : String).data = ['T'] from rfl, List.append_assoc]
    rfl
  have hrepl : jsReplaceFirstT ((d ++ "T" ++ t).data) = d.data ++ ',' :: ' ' :: t.data := by
    rw [hdata]
    exact jsReplaceFirstT_append _ _ hdnoT
  have htake : (d.data ++ ',' :: ' ' :: t.data).take 16 =
      d.data ++ ',' :: ' ' :: t.data.take 4 := by
    rw [List.take_append_eq_append_take, hdlen,
      List.take_of_length_le (by rw [hdlen]; norm_num)]
    rfl
  have hmain : jsTimestamp (d ++ "T" ++ t) =
      String.mk (d.data ++ ',' :: ' ' :: t.data.take 4) := by
    rw [jsTimestamp, hrepl, htake]
  refine ⟨?_, ?_⟩
  · rw [hmain]
    apply eq_of_data_eq
    rw [data_append, data_append,
      show (", " : String).data = [',', ' '] from rfl, List.append_assoc]
    rfl
  · rw [hmain, matchesPattern]
    show matchChars ("DDDD-DD-DD".data ++ ',' :: ' ' :: "DD:D".data)
      (d.data ++ ',' :: ' ' :: t.data.take 4) = true
    have hd2 : matchChars ("DDDD-DD-DD".data) d.data = true := hd
    have h2 : matchChars (',' :: ' ' :: "DD:D".data)
        (',' :: ' ' :: t.data.take 4) = true := by
      have h4 : matchChars ("DD:D".data) (t.data.take 4) = true := by
        have := matchChars_take _ _ 4 ht
        simpa using this
      simp [matchChars, h4]
    rw [matchChars_append _ _ _ _ (by rw [hdlen]; decide), hd2, h2]
    rfl

/-- C8 witness: the amended statement at a concrete ISO instant. -/
theorem C8_timestamp_format_witness :
    jsTimestamp ("2025-06-01" ++ "T" ++ "12:34:56.789Z") =
      "2025-06-01" ++ ", " ++ String.mk ("12:34:56.789Z".data.take 4) :=
  (C8_timestamp_format "2025-06-01" "12:34:56.789Z" (by decide) (by decide)).1

/-- C8 counterexample: at the concrete instant 2025-06-01T12:34:56.789Z
the stamped timestamp is the 16-character string with a single minute
digit, so it does not have the claimed YYYY-MM-DD, HH:MM shape with
two-digit minutes: slice(0, 16) is applied after the replacement of T by
the two characters comma-space has lengthened the string by one. -/
theorem C8_counterexample :
    jsTimestamp "2025-06-01T12:34:56.789Z" = "2025-06-01, 12:3" ∧
    matchesPattern "DDDD-DD-DD, DD:DD" (jsTimestamp "2025-06-01T12:34:56.789Z") = false ∧
    jsTimestamp "2025-06-01T12:34:56.789Z" ≠ "2025-06-01, 12:34" := by
  refine ⟨?_, ?_, ?_⟩ <;> decide

/-! Supporting lemmas for the fetch and transform step. -/

theorem mem_objSet (o : Store) (k : String) (v : ResultRecord)
    (p : String × ResultRecord) (h : p ∈ objSet o k v) :
    p ∈ o ∨ p = (k, v) := by
  induction o with
  | nil =>
      simp only [objSet] at h
      rcases List.mem_singleton.mp h with rfl
      exact Or.inr rfl
  | cons q o ih =>
      by_cases hq : q.1 = k
      · have hstep : objSet (q :: o) k v = (k, v) :: o := by simp [objSet, hq]
        rw [hstep] at h
        rcases List.mem_cons.mp h with h1 | h2
        · exact Or.inr h1
        · exact Or.inl (List.mem_cons_of_mem _ h2)
      · have hstep : objSet (q :: o) k v = q :: objSet o k v := by
          simp [objSet, hq]
        rw [hstep] at h
        rcases List.mem_cons.mp h with h1 | h2
        · exact Or.inl (h1 ▸ List.mem_cons_self _ _)
        · rcases ih h2 with ha | hb
          · exact Or.inl (List.mem_cons_of_mem _ ha)
          · exact Or.inr hb

theorem fetchFold_mem {S : Type} (resolve : S → Nat → Option String × S)
    (c : Campsite) (date ts : String) :
    ∀ (l : List RawItem) (acc : Store × S) (p : String × ResultRecord),
      p ∈ (l.foldl (fetchStep resolve c date ts) acc).1 →
      p ∈ acc.1 ∨ ∃ item supplier, p.2 = transformItem item supplier c date ts := by
  intro l
  induction l with
  | nil => intro acc p hp; exact Or.inl hp
  | cons item l ih =>
      intro acc p hp
      rw [List.foldl_cons] at hp
      rcases ih _ p hp with hmem | hex
      · rw [fetchStep] at hmem
        rcases mem_objSet _ _ _ p hmem with ha | hb
        · exact Or.inl ha
        · refine Or.inr ⟨item, (resolve acc.2 item.id).1, ?_⟩
          rw [hb]
      · exact Or.inr hex

/-- Every record of a successful fetchData carries the owning campsite
code, the source label, the requested date and the ingestion timestamp of
the call. -/
theorem fetchData_record_fields {S : Type} (raw : RawResponse)
    (resolve : S → Nat → Option String × S) (s0 : S) (c : Campsite)
    (date iso : String) (st : Store) (s' : S)
    (h : fetchData (some raw) resolve s0 c date iso = some (st, s')) :
    ∀ p ∈ st, p.2.campsite = c.code ∧ p.2.website = WEBSITE_NAME ∧
      p.2.requestedDate = date ∧ p.2.timestamp = jsTimestamp iso := by
  intro p hp
  simp only [fetchData] at h
  injection h with h
  have hst : st = ((raw.accommodations.getD [] ++ raw.alternatives.getD []).foldl
      (fetchStep resolve c date (jsTimestamp iso)) (([] : Store), s0)).1 :=
    (congrArg Prod.fst h).symm
  rw [hst] at hp
  rcases fetchFold_mem resolve c date (jsTimestamp iso) _ _ p hp with hin | hex
  · cases hin
  · obtain ⟨item, supplier, hrec⟩ := hex
    rw [hrec]
    exact ⟨rfl, rfl, rfl, rfl⟩

/-- C10: for every campsite and date, every record in the mapping
returned by a successful fetchData has its campsite field equal to the
campsite code, its website field equal to ALLCAMPS and its requestedDate
field equal to the date — the invariant that makes the reconciliation
filter on the campsite field delimit exactly the fresh records of this
campsite. -/
theorem C10_record_invariant {S : Type} (raw : RawResponse)
    (resolve : S → Nat → Option String × S) (s0 : S) (c : Campsite)
    (date iso : String) (st : Store) (s' : S)
    (h : fetchData (some raw) resolve s0 c date iso = some (st, s')) :
    ∀ p ∈ st, p.2.campsite = c.code ∧ p.2.website = "ALLCAMPS" ∧
      p.2.requestedDate = date :=
  fun p hp =>
    ⟨(fetchData_record_fields raw resolve s0 c date iso st s' h p hp).1,
     (fetchData_record_fields raw resolve s0 c date iso st s' h p hp).2.1,
     (fetchData_record_fields raw resolve s0 c date iso st s' h p hp).2.2.1⟩

/-- A sample raw listing used by the concrete witnesses. -/
def item1 : RawItem :=
  { id := 42, name := "Mobile home", category := "mobile-home",
    categorySlug := "mobile-home", maxPersons := 4, bedrooms := 2,
    aircondition := true, dogAllowed := false,
    priceBeforeFeesBeforeDiscount := 500,
    priceBeforeFeesAfterDiscount := 450, size := 30,
    arrivalDate := "2025-06-01", duration := 7 }

/-- A sample campsite with code A. -/
def campA : Campsite :=
  { code := "A", name := "Alpha", country := "de", region := "r",
    lastUpdate := none }

/-- A sample campsite with code B. -/
def campB : Campsite :=
  { code := "B", name := "Beta", country := "fr", region := "s",
    lastUpdate := none }

/-- A sample ISO instant. -/
def tsW : String := "2025-06-01T12:34:56.789Z"

/-- A sample raw search response with one primary listing and no
alternatives. -/
def rawResp1 : RawResponse :=
  { accommodations := some [item1], alternatives := none }

/-- A supplier resolver that always yields null and keeps no state. -/
def nullResolve : Unit → Nat → Option String × Unit := fun s _ => (none, s)

/-- C10 witness: the single record fetched for campsite A on 2025-06-01
carries campsite A, website ALLCAMPS and the requested date. -/
theorem C10_record_invariant_witness :
    (transformItem item1 none campA "2025-06-01" (jsTimestamp tsW)).campsite = campA.code ∧
    (transformItem item1 none campA "2025-06-01" (jsTimestamp tsW)).website = "ALLCAMPS" ∧
    (transformItem item1 none campA "2025-06-01" (jsTimestamp tsW)).requestedDate = "2025-06-01" :=
  C10_record_invariant rawResp1 nullResolve () campA "2025-06-01" tsW
    [(mkKey "A" "2025-06-01" 42,
      transformItem item1 none campA "2025-06-01" (jsTimestamp tsW))] ()
    (by decide)
    (mkKey "A" "2025-06-01" 42,
      transformItem item1 none campA "2025-06-01" (jsTimestamp tsW))
    (List.mem_singleton.mpr rfl)

/-- C6: a failed search call yields the failure signal null with no
partial data; a successful one always yields a mapping, namely the
transform of the concatenation of the primary accommodations and the
alternatives arrays (the two arrays are treated identically); and the
orchestrator loop skips a failed (campsite, date) entry entirely — the
new-results mapping is the one built from the remaining dates alone. -/
theorem C6_failure_and_skip {S : Type} (resolve : S → Nat → Option String × S)
    (s0 : S) (c : Campsite) (date iso : String) :
    fetchData (S := S) none resolve s0 c date iso = none ∧
    (∀ raw : RawResponse,
        (fetchData (some raw) resolve s0 c date iso).isSome = true) ∧
    (∀ raw : RawResponse,
        fetchData (some raw) resolve s0 c date iso =
          fetchData (some (RawResponse.mk
              (some (raw.accommodations.getD [] ++ raw.alternatives.getD []))
              none)) resolve s0 c date iso) ∧
    (∀ (pre post : List (String × String)) (nm dt : String)
        (fetched : String → String → Option Store), fetched nm dt = none →
        buildNewResults (pre ++ (nm, dt) :: post) fetched =
          buildNewResults (pre ++ post) fetched) := by
  refine ⟨rfl, fun raw => rfl, fun raw => ?_, ?_⟩
  · simp [fetchData]
  · intro pre post nm dt fetched hfail
    rw [buildNewResults, buildNewResults, List.foldl_append, List.foldl_append,
      List.foldl_cons]
    have hstep : dateStep fetched (List.foldl (dateStep fetched) [] pre) (nm, dt) =
        List.foldl (dateStep fetched) [] pre := by
      rw [dateStep, hfail]
    rw [hstep]

/-- C6 witness: a concrete skip — with the first date failing and the
second succeeding, the new-results mapping equals the one built from the
second date alone. -/
theorem C6_failure_and_skip_witness :
    buildNewResults ([] ++ ("week1", "2025-06-01") :: [("week2", "2025-06-08")])
        (fun _ dt => if dt = "2025-06-01" then none else some []) =
      buildNewResults ([] ++ [("week2", "2025-06-08")])
        (fun _ dt => if dt = "2025-06-01" then none else some []) :=
  (C6_failure_and_skip (S := Unit) nullResolve () campA "2025-06-01" tsW).2.2.2
    [] [("week2", "2025-06-08")] "week1" "2025-06-01"
    (fun _ dt => if dt = "2025-06-01" then none else some []) (by decide)

/-! Supporting lemmas for the orchestrator. -/

theorem buildNewResults_nil_of_fail (dates : List (String × String))
    (fetched : String → String → Option Store)
    (h : ∀ e ∈ dates, fetched e.1 e.2 = none) :
    buildNewResults dates fetched = [] := by
  rw [buildNewResults]
  have hgen : ∀ (l : List (String × String)), (∀ e ∈ l, fetched e.1 e.2 = none) →
      ∀ acc : Store, l.foldl (dateStep fetched) acc = acc := by
    intro l
    induction l with
    | nil => intro _ acc; rfl
    | cons e l ih =>
        intro hl acc
        rw [List.foldl_cons]
        have hstep : dateStep fetched acc e = acc := by
          rw [dateStep, hl e (List.mem_cons_self _ _)]
        rw [hstep]
        exact ih (fun x hx => hl x (List.mem_cons_of_mem _ hx)) acc
  exact hgen dates h []

theorem keysNodup_buildNewResults (dates : List (String × String))
    (fetched : String → String → Option Store) :
    keysNodup (buildNewResults dates fetched) := by
  rw [buildNewResults]
  have hgen : ∀ (l : List (String × String)) (acc : Store), keysNodup acc →
      keysNodup (l.foldl (dateStep fetched) acc) := by
    intro l
    induction l with
    | nil => intro acc h; exact h
    | cons e l ih =>
        intro acc h
        rw [List.foldl_cons]
        apply ih
        rw [dateStep]
        cases hf : fetched e.1 e.2
        · exact h
        · exact keysNodup_objAssign _ _ h
  exact hgen dates [] (by simp [keysNodup])

theorem objGet_filter_none (o : Store) (f : String × ResultRecord → Bool)
    (k : String) (h : objGet o k = none) : objGet (o.filter f) k = none := by
  induction o with
  | nil => simp [objGet]
  | cons p o ih =>
      rw [objGet_cons] at h
      by_cases hp : p.1 = k
      · simp [hp] at h
      · have h2 : objGet o k = none := by simpa [hp] using h
        rw [List.filter_cons]
        cases hfp : f p
        · simp only [Bool.false_eq_true, if_false]
          exact ih h2
        · simp only [if_true]
          rw [objGet_cons, if_neg (by simp [hp])]
          exact ih h2

theorem objGet_filter_pos (o : Store) (f : String × ResultRecord → Bool)
    (k : String) (v : ResultRecord) (h : objGet o k = some v)
    (hf : f (k, v) = true) : objGet (o.filter f) k = some v := by
  induction o with
  | nil => simp [objGet] at h
  | cons p o ih =>
      rw [objGet_cons] at h
      by_cases hp : p.1 = k
      · have hpv : p = (k, v) := by
          obtain ⟨a, b⟩ := p
          simp only at hp
          have hb : b = v := by simpa [hp] using h
          rw [hp, hb]
        subst hpv
        rw [List.filter_cons, hf]
        simp [objGet_cons]
      · have h2 : objGet o k = some v := by simpa [hp] using h
        rw [List.filter_cons]
        cases hfp : f p
        · simp only [Bool.false_eq_true, if_false]
          exact ih h2
        · simp only [if_true]
          rw [objGet_cons, if_neg (by simp [hp])]
          exact ih h2

theorem objGet_filter_neg (o : Store) (f : String × ResultRecord → Bool)
    (k : String) (v : ResultRecord) (hnd : keysNodup o)
    (h : objGet o k = some v) (hf : f (k, v) = false) :
    objGet (o.filter f) k = none := by
  induction o with
  | nil => simp [objGet] at h
  | cons p o ih =>
      rw [keysNodup, List.map_cons, List.nodup_cons] at hnd
      rw [objGet_cons] at h
      by_cases hp : p.1 = k
      · have hpv : p = (k, v) := by
          obtain ⟨a, b⟩ := p
          simp only at hp
          have hb : b = v := by simpa [hp] using h
          rw [hp, hb]
        subst hpv
        rw [List.filter_cons, hf]
        simp only [Bool.false_eq_true, if_false]
        apply objGet_filter_none
        rw [objGet_eq_none]
        intro q hq hqk
        apply hnd.1
        have hmem : q.1 ∈ List.map Prod.fst o := List.mem_map_of_mem Prod.fst hq
        rw [hqk] at hmem
        exact hmem
      · have h2 : objGet o k = some v := by simpa [hp] using h
        rw [List.filter_cons]
        cases hfp : f p
        · simp only [Bool.false_eq_true, if_false]
          exact ih hnd.2 h2
        · simp only [if_true]
          rw [objGet_cons, if_neg (by simp [hp])]
          exact ih hnd.2 h2

/-- C3: if the fetch for every date entry fails, the persisted result
store is exactly the prior store with every record of the target campsite
removed — zero records for that code remain, nothing is added — the
store is still written (once), and the campsite registry, in particular
lastUpdate of the scraped campsite, is left untouched and unsaved. -/
theorem C3_destructive_total_failure (c : Campsite)
    (dates : List (String × String))
    (fetched : String → String → Option Store) (currentResults : Store)
    (campsites : List Campsite) (now : Int)
    (hfail : ∀ e ∈ dates, fetched e.1 e.2 = none) :
    (scrapeCampsite c dates fetched currentResults campsites now).newResults = [] ∧
    (scrapeCampsite c dates fetched currentResults campsites now).savedResults =
      currentResults.filter (fun p => p.2.campsite != c.code) ∧
    (∀ p ∈ (scrapeCampsite c dates fetched currentResults campsites now).savedResults,
        p.2.campsite ≠ c.code) ∧
    (scrapeCampsite c dates fetched currentResults campsites now).campsitesAfter =
      campsites ∧
    (scrapeCampsite c dates fetched currentResults campsites now).campsitesSaved =
      false ∧
    (scrapeCampsite c dates fetched currentResults campsites now).resultStoreWrites =
      [currentResults.filter (fun p => p.2.campsite != c.code)] := by
  have hnew : buildNewResults dates fetched = [] :=
    buildNewResults_nil_of_fail dates fetched hfail
  have hsaved : (scrapeCampsite c dates fetched currentResults campsites now).savedResults =
      currentResults.filter (fun p => p.2.campsite != c.code) := by
    simp [scrapeCampsite, hnew, objAssign]
  refine ⟨?_, hsaved, ?_, ?_, ?_, ?_⟩
  · simp [scrapeCampsite, hnew]
  · intro p hp
    rw [hsaved] at hp
    have := (List.mem_filter.mp hp).2
    simpa using this
  · simp [scrapeCampsite, hnew, stampLastUpdate]
  · simp [scrapeCampsite, hnew, stampLastUpdate]
  · simp [scrapeCampsite, hnew, objAssign]

/-- A record of campsite B, as the transform pipeline would produce it. -/
def recB : ResultRecord :=
  transformItem item1 none campB "2025-06-01" (jsTimestamp tsW)

/-- C3 witness: one date entry whose fetch fails, a prior store holding
one record of campsite B and one of campsite A; scraping A removes only
the record of A and leaves the registry alone. -/
theorem C3_destructive_total_failure_witness :
    (scrapeCampsite campA [("week1", "2025-06-01")] (fun _ _ => none)
        [(mkKey "B" "2025-06-01" 42, recB),
          (mkKey "A" "2025-06-01" 42,
            transformItem item1 none campA "2025-06-01" (jsTimestamp tsW))]
        [campA] 0).savedResults =
      [(mkKey "B" "2025-06-01" 42, recB)] ∧
    (scrapeCampsite campA [("week1", "2025-06-01")] (fun _ _ => none)
        [(mkKey "B" "2025-06-01" 42, recB),
          (mkKey "A" "2025-06-01" 42,
            transformItem item1 none campA "2025-06-01" (jsTimestamp tsW))]
        [campA] 0).campsitesAfter = [campA] := by
  have h := C3_destructive_total_failure campA [("week1", "2025-06-01")]
    (fun _ _ => none)
    [(mkKey "B" "2025-06-01" 42, recB),
      (mkKey "A" "2025-06-01" 42,
        transformItem item1 none campA "2025-06-01" (jsTimestamp tsW))]
    [campA] 0 (fun _ _ => rfl)
  refine ⟨?_, h.2.2.2.1⟩
  rw [h.2.1]
  decide

/-- C1 (amended): after scrape(C) the result store is written exactly
once, with the prior store stripped of every record whose campsite field
equals the code of C and overlaid with the new-results mapping, new keys
winning unconditionally; a prior record whose campsite field differs from
the code of C is unchanged provided its key is not among the new keys (a
new key colliding with a kept key overwrites that entry — see the
counterexample); a prior record of C whose key is not refreshed is
removed. -/
theorem C1_reconciliation (c : Campsite) (dates : List (String × String))
    (fetched : String → String → Option Store) (currentResults : Store)
    (campsites : List Campsite) (now : Int) (hnd : keysNodup currentResults) :
    (scrapeCampsite c dates fetched currentResults campsites now).resultStoreWrites =
      [objAssign (currentResults.filter (fun p => p.2.campsite != c.code))
        (buildNewResults dates fetched)] ∧
    (∀ k v, objGet (buildNewResults dates fetched) k = some v →
        objGet (scrapeCampsite c dates fetched currentResults campsites now).savedResults
          k = some v) ∧
    (∀ k v, objGet currentResults k = some v → v.campsite ≠ c.code →
        objGet (buildNewResults dates fetched) k = none →
        objGet (scrapeCampsite c dates fetched currentResults campsites now).savedResults
          k = some v) ∧
    (∀ k v, objGet currentResults k = some v → v.campsite = c.code →
        objGet (buildNewResults dates fetched) k = none →
        objGet (scrapeCampsite c dates fetched currentResults campsites now).savedResults
          k = none) := by
  have hsv : (scrapeCampsite c dates fetched currentResults campsites now).savedResults =
      objAssign (currentResults.filter (fun p => p.2.campsite != c.code))
        (buildNewResults dates fetched) := rfl
  refine ⟨rfl, ?_, ?_, ?_⟩
  · intro k v hk
    rw [hsv]
    exact objGet_objAssign_some _ _ _ _ (keysNodup_buildNewResults dates fetched) hk
  · intro k v hcur hne hnone
    rw [hsv, objGet_objAssign_none _ _ _ hnone]
    exact objGet_filter_pos _ _ _ _ hcur (by simp [hne])
  · intro k v hcur heq hnone
    rw [hsv, objGet_objAssign_none _ _ _ hnone]
    exact objGet_filter_neg _ _ _ _ hnd hcur (by simp [heq])

/-- The date registry of the concrete scrape scenarios. -/
def cexDates : List (String × String) := [("week1", "2025-06-01")]

/-- The per-date fetch outcomes of a concrete scrape of campsite A: the
fetchData pipeline run on the sample response, with the supplier
subsystem resolving to null. -/
def cexFetched : String → String → Option Store :=
  fun _ dt => (fetchData (some rawResp1) nullResolve () campA dt tsW).map Prod.fst

/-- A prior result store in which the record stored under the composite
key of campsite A, date 2025-06-01 and item 42 carries campsite field B:
in an arbitrary prior store (an external file) the composite key does not
determine the campsite field of the record stored under it. -/
def cexCurrent : Store := [(mkKey "A" "2025-06-01" 42, recB)]

/-- C1 counterexample: scraping campsite A with the prior store above
removes the record whose campsite field is B, because the fresh scrape of
A produces exactly the colliding key and new keys win unconditionally —
so a record whose campsite field differs from the code of A is not left
unchanged, refuting the unconditional unchanged-record clause. -/
theorem C1_counterexample :
    recB.campsite ≠ campA.code ∧
    objGet cexCurrent (mkKey "A" "2025-06-01" 42) = some recB ∧
    objGet (scrapeCampsite campA cexDates cexFetched cexCurrent [campA] 0).savedResults
        (mkKey "A" "2025-06-01" 42) ≠ some recB := by
  refine ⟨?_, ?_, ?_⟩ <;> decide

/-- A prior result store holding a single record of campsite B under the
key of campsite B. -/
def witCurrent : Store := [(mkKey "B" "2025-06-01" 7, recB)]

/-- C1 witness: scraping campsite A leaves the record of campsite B,
stored under a non-colliding key, unchanged. -/
theorem C1_reconciliation_witness :
    objGet (scrapeCampsite campA cexDates cexFetched witCurrent [campA] 0).savedResults
      (mkKey "B" "2025-06-01" 7) = some recB :=
  (C1_reconciliation campA cexDates cexFetched witCurrent [campA] 0
      (by decide)).2.2.1
    (mkKey "B" "2025-06-01" 7) recB (by decide) (by decide) (by decide)

/-- The composite key is injective in the date once the campsite code,
the source label and the item id are fixed. -/
theorem mkKey_inj_date (code d1 d2 : String) (id : Nat)
    (h : mkKey code d1 id = mkKey code d2 id) : d1 = d2 := by
  rw [mkKey, mkKey] at h
  have hdata := congrArg String.data h
  simp only [data_append] at hdata
  have h5 := List.append_cancel_right (List.append_cancel_right hdata)
  have h6 := List.append_cancel_left h5
  exact eq_of_data_eq _ _ h6

/-- C7: every result record is keyed by the composite string built from
campsite code, source label, date and item id; for the same campsite and
item id, two listings fetched for different dates produce two distinct
keys, and both records survive reconciliation — the overlay of the
new-results mapping onto the stripped prior store keeps both. -/
theorem C7_key_uniqueness (code d1 d2 : String) (id : Nat)
    (r1 r2 : ResultRecord) (kept new : Store) (hd : d1 ≠ d2)
    (hnodup : keysNodup new)
    (h1 : objGet new (mkKey code d1 id) = some r1)
    (h2 : objGet new (mkKey code d2 id) = some r2) :
    mkKey code d1 id =
      code ++ "_from_" ++ "ALLCAMPS" ++ "_at_" ++ d1 ++ "_#" ++ toString id ∧
    mkKey code d1 id ≠ mkKey code d2 id ∧
    objGet (objAssign kept new) (mkKey code d1 id) = some r1 ∧
    objGet (objAssign kept new) (mkKey code d2 id) = some r2 :=
  ⟨rfl,
   fun hk => hd (mkKey_inj_date code d1 d2 id hk),
   objGet_objAssign_some _ _ _ _ hnodup h1,
   objGet_objAssign_some _ _ _ _ hnodup h2⟩

/-- The record of campsite A for item 42 on the first date. -/
def recA1 : ResultRecord :=
  transformItem item1 none campA "2025-06-01" (jsTimestamp tsW)

/-- The record of campsite A for item 42 on the second date. -/
def recA2 : ResultRecord :=
  transformItem item1 none campA "2025-06-08" (jsTimestamp tsW)

/-- A new-results mapping holding the same item for two dates. -/
def witNew : Store :=
  [(mkKey "A" "2025-06-01" 42, recA1), (mkKey "A" "2025-06-08" 42, recA2)]

/-- C7 witness: the same item fetched for two dates survives the overlay
onto a store holding a record of campsite B. -/
theorem C7_key_uniqueness_witness :
    mkKey "A" "2025-06-01" 42 ≠ mkKey "A" "2025-06-08" 42 ∧
    objGet (objAssign [(mkKey "B" "2025-06-01" 7, recB)] witNew)
      (mkKey "A" "2025-06-01" 42) = some recA1 ∧
    objGet (objAssign [(mkKey "B" "2025-06-01" 7, recB)] witNew)
      (mkKey "A" "2025-06-08" 42) = some recA2 := by
  have h := C7_key_uniqueness "A" "2025-06-01" "2025-06-08" 42 recA1 recA2
    [(mkKey "B" "2025-06-01" 7, recB)] witNew (by decide) (by decide)
    (by decide) (by decide)
  exact ⟨h.2.1, h.2.2.1, h.2.2.2⟩

end Rategrab
